import Mathlib

/-!
# CFOne analysis pipeline — verification of the orchestration core

Shallow embedding of the CFOne repository's agent-orchestration core:

* `invokeAgent` embeds `NovaClient.invoke_agent`
  (`src/app/services/nova_client.py`), including the retry loop with
  exponential backoff and the markdown-fence cleanup applied to replies.
* `processAnalysis` embeds the background task `process_analysis`
  (`src/app/routers/analysis.py`): document text collection, the five
  sequential agent stages, Stage Result persistence, report aggregation and
  run status updates.
* `runWithRetry` embeds `BaseAgent.run_with_retry` together with the
  per-variant `_validate_output` checks (`src/app/agents/*.py`).

Python `dict`s that hold JSON-shaped data are embedded as association lists
with unique keys (`Dict`); Python's `in`, `.get(k)` and `.get(k, d)` become
`hasKey`, `dget` and `dgetD`.  The model provider (AWS Bedrock) and the JSON
parser (`json.loads`) are external collaborators, so they enter the embedding
as parameters: the provider as a map from attempt index to outcome, the parser
as an arbitrary function on character lists.
-/

namespace CFOne

/-- JSON-shaped values, the data carried between stages. -/
inductive JsonVal where
  | jnull
  | jbool (b : Bool)
  | jnum (n : Int)
  | jstr (s : String)
  | jarr (xs : List JsonVal)
  | jobj (kvs : List (String × JsonVal))

/-- Python dicts holding JSON data: association lists keyed by strings. -/
abbrev Dict := List (String × JsonVal)

/-- Python `k in d` for dicts. -/
def hasKey (d : Dict) (k : String) : Bool :=
  d.any (fun p => p.1 == k)

/-- Python `d.get(k)` / `d[k]`: the first binding of `k`. -/
def dget (d : Dict) (k : String) : Option JsonVal :=
  (d.find? (fun p => p.1 == k)).map (fun p => p.2)

/-- Python `d.get(k, default)`. -/
def dgetD (d : Dict) (k : String) (default : JsonVal) : JsonVal :=
  (dget d k).getD default

/-! ## Reply cleanup (`nova_client.py` lines 88–96)

`invoke_agent` strips an optional leading ```` ```json ```` / ```` ``` ````
fence and an optional trailing ```` ``` ```` fence from the raw reply before
JSON parsing.  Strings are embedded as `List Char`; Python's `str.strip()`,
`str.startswith` and `str.endswith` become `pyStrip`, `listStarts` and
`listEnds`. -/

/-- The backtick character. -/
def btick : Char := Char.ofNat 96

/-- Characters removed by Python's default `str.strip()` (ASCII whitespace). -/
def isPyWs (c : Char) : Bool :=
  c == ' ' || c == '\t' || c == '\n' || c == '\r' || c == Char.ofNat 11 || c == Char.ofNat 12

/-- Python `s.strip()`: drop ASCII whitespace from both ends. -/
def pyStrip (l : List Char) : List Char :=
  (((l.dropWhile isPyWs).reverse.dropWhile isPyWs)).reverse

/-- Python `s.startswith(p)`. -/
def listStarts : List Char → List Char → Bool
  | _, [] => true
  | [], _ :: _ => false
  | c :: cs, p :: ps => c == p && listStarts cs ps

/-- Python `s.endswith(p)`. -/
def listEnds (l p : List Char) : Bool :=
  listStarts l.reverse p.reverse

/-- The three-backtick fence `\x60\x60\x60`. -/
def fence : List Char := [btick, btick, btick]

/-- The fence with language tag, `\x60\x60\x60json`. -/
def fenceJson : List Char := [btick, btick, btick, 'j', 's', 'o', 'n']

/-- The cleanup applied to a raw model reply before JSON parsing
(`nova_client.py` lines 89–96): strip, drop a leading ```` ```json ```` then a
leading ```` ``` ````, drop a trailing ```` ``` ````, strip again. -/
def cleanReply (raw : List Char) : List Char :=
  let t0 := pyStrip raw
  let t1 := if listStarts t0 fenceJson then t0.drop 7 else t0
  let t2 := if listStarts t1 fence then t1.drop 3 else t1
  let t3 := if listEnds t2 fence then t2.take (t2.length - 3) else t2
  pyStrip t3

/-! ## Model Invoker (`NovaClient.invoke_agent`, `nova_client.py` lines 55–134) -/

/-- Outcome of one call to the model provider (`self.client.converse`):
a raw text reply, a `botocore` `ClientError` with an error code and message,
or any other exception. -/
inductive ProviderResult where
  | ok (text : List Char)
  | clientError (code message : String)
  | exn (message : String)

/-- What `invoke_agent` produced: the returned mapping, the number of
provider calls made, and the backoff sleeps performed (in seconds, in
order). -/
structure InvokeOutcome where
  result : JsonVal
  attempts : Nat
  sleeps : List Nat

/-- The two provider error codes `invoke_agent` treats as transient
(`nova_client.py` line 114). -/
def isTransient (code : String) : Bool :=
  code == "ThrottlingException" || code == "ServiceUnavailableException"

/-- `Settings.max_retries` default (`config.py` line 48). -/
def defaultMaxRetries : Nat := 3

/-- The `for attempt in range(max_retries)` loop of `invoke_agent`.
`jparse` stands for `json.loads` (returning `none` on a parse failure),
`provider` maps the attempt index to that call's outcome. -/
def invokeLoop (jparse : List Char → Option JsonVal) (provider : Nat → ProviderResult)
    (maxRetries : Nat) (attempt : Nat) : InvokeOutcome :=
  if _h : attempt < maxRetries then
    match provider attempt with
    | .ok text =>
      match jparse (cleanReply text) with
      | some v => { result := v, attempts := attempt + 1, sleeps := [] }
      | none =>
        { result := .jobj [("response", .jstr (String.mk text)), ("raw_text", .jbool true)],
          attempts := attempt + 1, sleeps := [] }
    | .clientError code msg =>
      if attempt < maxRetries - 1 && isTransient code then
        let rest := invokeLoop jparse provider maxRetries (attempt + 1)
        { rest with sleeps := 2 ^ attempt :: rest.sleeps }
      else
        { result := .jobj [("error", .jstr (code ++ ": " ++ msg))],
          attempts := attempt + 1, sleeps := [] }
    | .exn msg =>
      if attempt < maxRetries - 1 then
        let rest := invokeLoop jparse provider maxRetries (attempt + 1)
        { rest with sleeps := 2 ^ attempt :: rest.sleeps }
      else
        { result := .jobj [("error", .jstr ("Failed to invoke model: " ++ msg))],
          attempts := attempt + 1, sleeps := [] }
  else
    { result := .jobj [("error", .jstr "Max retries exceeded")],
      attempts := attempt, sleeps := [] }
termination_by maxRetries - attempt
decreasing_by all_goals omega

/-- `NovaClient.invoke_agent`: run the retry loop from attempt 0. -/
def invokeAgent (jparse : List Char → Option JsonVal) (provider : Nat → ProviderResult)
    (maxRetries : Nat) : InvokeOutcome :=
  invokeLoop jparse provider maxRetries 0

/-! ## Agent validation and `BaseAgent.run_with_retry` (`base_agent.py`, agents)

Each agent variant's `_validate_output` first runs the base check (an
`"error"` key makes validation fail) and otherwise logs a warning for each
missing required key and returns `True`.  `run_with_retry` calls the Invoker,
measures wall-clock time, runs validation (logging only) and returns the
Invoker's mapping together with the measured duration.  Wall-clock time is
not computable inside the embedding, so the measured elapsed milliseconds
enter as a parameter and are threaded through exactly as the code does. -/

/-- Required top-level keys of `FinancialAnalyzer._validate_output`. -/
def financialAnalyzerKeys : List String :=
  ["revenue", "expenses", "liabilities", "loan_emis", "tax_payments", "metrics"]

/-- Required top-level keys of `CashFlowForecaster._validate_output`. -/
def cashFlowForecasterKeys : List String :=
  ["current_cash_position", "monthly_burn_rate", "runway_months", "forecasts", "trends"]

/-- Required top-level keys of `RiskDetector._validate_output`. -/
def riskDetectorKeys : List String :=
  ["risk_score", "risk_level", "risk_factors", "anomalies", "metrics"]

/-- Required top-level keys of `AutomationAgent._validate_output`. -/
def automationAgentKeys : List String :=
  ["upcoming_deadlines", "compliance_issues", "automation_suggestions", "draft_emails"]

/-- Required top-level keys of `ExplainabilityAgent._validate_output`. -/
def explainabilityAgentKeys : List String :=
  ["executive_summary", "loan_readiness_score", "loan_analysis", "recommended_actions",
   "key_insights", "plain_language_metrics"]

/-- A variant's `_validate_output`: returns the boolean verdict and the
warning log lines produced (one per missing required key; the base class
logs an error and returns `False` when the `"error"` key is present). -/
def validateOutput (requiredKeys : List String) (output : Dict) : Bool × List String :=
  if hasKey output "error" then
    (false, [])
  else
    (true, (requiredKeys.filter (fun k => !hasKey output k)).map
      (fun k => "Missing required key in output: " ++ k))

/-- What `BaseAgent.run_with_retry` hands back on the non-raising path:
the result mapping, the measured duration, the validation verdict and the
warnings logged. -/
structure RetryOutcome where
  result : Dict
  durationMs : Nat
  validationOk : Bool
  warnings : List String

/-- `BaseAgent.run_with_retry` on the path where prompt construction and the
Invoker call return normally: `invokeResult` is the mapping the Invoker
returned, `elapsedMs` the measured wall-clock duration.  Validation runs but
only logs; the Invoker's mapping is returned unchanged. -/
def runWithRetry (invokeResult : Dict) (elapsedMs : Nat) (requiredKeys : List String) :
    RetryOutcome :=
  let v := validateOutput requiredKeys invokeResult
  { result := invokeResult, durationMs := elapsedMs, validationOk := v.1, warnings := v.2 }

/-! ## Pipeline Orchestrator (`process_analysis`, `routers/analysis.py` lines 27–225)

Documents enter the embedding as records carrying the facts the loop at
lines 71–111 branches on: the filename (suffix dispatch), whether the file
exists on disk, the stored document type, and the collaborator-provided parse
outcome (extracted text, or a parser error that makes the loop `continue`).
The five agents enter as functions from context mapping to result mapping —
`execute` of each variant (which, per `run_with_retry`, is total). -/

/-- Outcome of the collaborator-provided parser for one document: extracted
text (for Excel files, the JSON-dumped sheet data) or an error mapping. -/
inductive DocParse where
  | success (text : String)
  | failure (msg : String)

/-- One stored document as seen by `process_analysis`. -/
structure DocRec where
  filename : String
  docType : Option String
  fileExists : Bool
  parse : DocParse

/-- `doc.filename.endswith(".pdf")`. -/
def isPdfName (f : String) : Bool := listEnds f.toList ".pdf".toList

/-- `doc.filename.endswith((".xlsx", ".xls"))`. -/
def isExcelName (f : String) : Bool :=
  listEnds f.toList ".xlsx".toList || listEnds f.toList ".xls".toList

/-- The text this document appends to `all_text`: nothing when the file is
missing, the parse errored, or the filename matches neither branch. -/
def docContribution (d : DocRec) : Option String :=
  if !d.fileExists then none
  else if isPdfName d.filename then
    match d.parse with
    | .success t => some t
    | .failure _ => none
  else if isExcelName d.filename then
    match d.parse with
    | .success t => some t
    | .failure _ => none
  else none

/-- The label this document appends to `doc_types`
(`doc.document_type or "financial_document"`); skipped documents contribute
nothing, but a file with an unrecognized extension still contributes. -/
def docTypeContribution (d : DocRec) : Option String :=
  if !d.fileExists then none
  else if isPdfName d.filename then
    match d.parse with
    | .success _ => some (d.docType.getD "financial_document")
    | .failure _ => none
  else if isExcelName d.filename then
    match d.parse with
    | .success _ => some (d.docType.getD "financial_document")
    | .failure _ => none
  else some (d.docType.getD "financial_document")

/-- `all_text` after the document loop. -/
def collectText (docs : List DocRec) : List String :=
  docs.filterMap docContribution

/-- `doc_types` after the document loop. -/
def collectTypes (docs : List DocRec) : List String :=
  docs.filterMap docTypeContribution

/-- Context of stage 1 (`context1`, line 132). -/
def buildContext1 (combinedText : String) (docTypes : List String) : Dict :=
  [("documents_text", .jstr combinedText),
   ("document_types", .jarr (docTypes.map .jstr))]

/-- Context of stage 2 (`context2`, line 144). -/
def buildContext2 (result1 : Dict) : Dict :=
  [("financial_data", .jobj result1)]

/-- Context of stage 3 (`context3`, line 156). -/
def buildContext3 (result1 result2 : Dict) : Dict :=
  [("financial_data", .jobj result1), ("cashflow_data", .jobj result2)]

/-- Context of stage 4 (`context4`, line 168). -/
def buildContext4 (result1 : Dict) : Dict :=
  [("financial_data", .jobj result1)]

/-- Context of stage 5 (`context5`, line 180). -/
def buildContext5 (result1 result2 result3 result4 : Dict) : Dict :=
  [("financial_data", .jobj result1), ("cashflow_data", .jobj result2),
   ("risk_data", .jobj result3), ("compliance_data", .jobj result4)]

/-- The aggregated report (`report_data`, lines 192–199). -/
def buildReport (result1 result2 result3 result4 result5 : Dict) : Dict :=
  [("section_1_financial_health", .jobj result1),
   ("section_2_cash_flow_forecast", .jobj result2),
   ("section_3_risk_alerts", .jobj result3),
   ("section_4_compliance_automation", .jobj result4),
   ("section_5_loan_readiness_score", dgetD result5 "loan_readiness_score" (.jnum 0)),
   ("section_6_recommended_actions", .jobj result5)]

/-- One persisted `AgentResult` row. -/
structure AgentResultRec where
  agentName : String
  resultData : Dict
  executionTimeMs : Nat

/-- The run record's observable state: current status, error message,
persisted stage results, persisted report, whether `completed_at` was set,
and the sequence of status values the record has held, in order. -/
structure RunState where
  status : String
  errorMessage : Option String
  agentResults : List AgentResultRec
  report : Option Dict
  completedAtSet : Bool
  statusLog : List String

/-- The run record as `run_analysis` creates it (line 275): the API layer
creates every analysis with status `"processing"`. -/
def initialRun : RunState :=
  { status := "processing", errorMessage := none, agentResults := [],
    report := none, completedAtSet := false, statusLog := ["processing"] }

/-- `process_analysis` (lines 44–212) as a function of the resolved document
records and the five agents' `execute` functions, acting on the freshly
created run record. -/
def processAnalysis (docs : List DocRec) (a1 a2 a3 a4 a5 : Dict → Dict) : RunState :=
  if docs.isEmpty then
    { initialRun with
      status := "failed",
      errorMessage := some "No documents found",
      statusLog := initialRun.statusLog ++ ["failed"] }
  else
    let allText := collectText docs
    if allText.isEmpty then
      { initialRun with
        status := "failed",
        errorMessage := some "No text extracted from documents",
        statusLog := initialRun.statusLog ++ ["failed"] }
    else
      let combinedText := String.intercalate "\n\n" allText
      let result1 := a1 (buildContext1 combinedText (collectTypes docs))
      let result2 := a2 (buildContext2 result1)
      let result3 := a3 (buildContext3 result1 result2)
      let result4 := a4 (buildContext4 result1)
      let result5 := a5 (buildContext5 result1 result2 result3 result4)
      { initialRun with
        status := "completed",
        agentResults :=
          [⟨"Financial Analyzer", result1, 1000⟩,
           ⟨"Cash Flow Forecaster", result2, 1000⟩,
           ⟨"Risk Detector", result3, 1000⟩,
           ⟨"Automation Agent", result4, 1000⟩,
           ⟨"Explainability Agent", result5, 1000⟩],
        report := some (buildReport result1 result2 result3 result4 result5),
        completedAtSet := true,
        statusLog := initialRun.statusLog ++ ["completed"] }

/-! ## Lemmas about the retry loop -/

/-- One step of the loop when the provider reports a `ClientError`. -/
lemma invokeLoop_clientError_step {jparse : List Char → Option JsonVal}
    {provider : Nat → ProviderResult} {maxRetries attempt : Nat} {code msg : String}
    (h : attempt < maxRetries) (hc : provider attempt = ProviderResult.clientError code msg) :
    invokeLoop jparse provider maxRetries attempt =
      if attempt < maxRetries - 1 && isTransient code then
        { invokeLoop jparse provider maxRetries (attempt + 1) with
          sleeps := 2 ^ attempt :: (invokeLoop jparse provider maxRetries (attempt + 1)).sleeps }
      else
        { result := .jobj [("error", .jstr (code ++ ": " ++ msg))],
          attempts := attempt + 1, sleeps := [] } := by
  rw [invokeLoop, dif_pos h, hc]

/-- One step of the loop when the attempt raises a non-`ClientError` exception. -/
lemma invokeLoop_exn_step {jparse : List Char → Option JsonVal}
    {provider : Nat → ProviderResult} {maxRetries attempt : Nat} {msg : String}
    (h : attempt < maxRetries) (hc : provider attempt = ProviderResult.exn msg) :
    invokeLoop jparse provider maxRetries attempt =
      if attempt < maxRetries - 1 then
        { invokeLoop jparse provider maxRetries (attempt + 1) with
          sleeps := 2 ^ attempt :: (invokeLoop jparse provider maxRetries (attempt + 1)).sleeps }
      else
        { result := .jobj [("error", .jstr ("Failed to invoke model: " ++ msg))],
          attempts := attempt + 1, sleeps := [] } := by
  rw [invokeLoop, dif_pos h, hc]

/-- With an always-transient provider, the loop started at `attempt` makes all
remaining attempts, sleeping `2 ^ k` seconds after each non-final attempt `k`,
and ends with the final attempt's error mapping. -/
lemma invokeLoop_transient_all {jparse : List Char → Option JsonVal}
    {provider : Nat → ProviderResult} {maxRetries : Nat} {code msg : Nat → String}
    (hp : ∀ n, provider n = ProviderResult.clientError (code n) (msg n))
    (ht : ∀ n, isTransient (code n) = true)
    (attempt : Nat) (h : attempt < maxRetries) :
    invokeLoop jparse provider maxRetries attempt =
      { result := .jobj [("error",
          .jstr (code (maxRetries - 1) ++ ": " ++ msg (maxRetries - 1)))],
        attempts := maxRetries,
        sleeps := (List.range' attempt (maxRetries - 1 - attempt)).map (2 ^ ·) } := by
  rw [invokeLoop_clientError_step h (hp attempt)]
  by_cases h2 : attempt < maxRetries - 1
  · rw [if_pos (by simp [h2, ht attempt])]
    rw [invokeLoop_transient_all hp ht (attempt + 1) (by omega)]
    have hr : maxRetries - 1 - attempt = (maxRetries - 1 - (attempt + 1)) + 1 := by omega
    rw [hr, List.range'_succ]
    simp
  · rw [if_neg (by simp [h2])]
    have h3 : attempt + 1 = maxRetries := by omega
    have h4 : maxRetries - 1 - attempt = 0 := by omega
    have h5 : attempt = maxRetries - 1 := by omega
    rw [h3, h4, h5]
    rfl
termination_by maxRetries - attempt
decreasing_by omega

/-- With a provider that always raises a non-`ClientError` exception, the loop
started at `attempt` likewise makes all remaining attempts with the same
backoff, ending with the wrapped exception message. -/
lemma invokeLoop_exn_all {jparse : List Char → Option JsonVal}
    {provider : Nat → ProviderResult} {maxRetries : Nat} {msg : Nat → String}
    (hp : ∀ n, provider n = ProviderResult.exn (msg n))
    (attempt : Nat) (h : attempt < maxRetries) :
    invokeLoop jparse provider maxRetries attempt =
      { result := .jobj [("error",
          .jstr ("Failed to invoke model: " ++ msg (maxRetries - 1)))],
        attempts := maxRetries,
        sleeps := (List.range' attempt (maxRetries - 1 - attempt)).map (2 ^ ·) } := by
  rw [invokeLoop_exn_step h (hp attempt)]
  by_cases h2 : attempt < maxRetries - 1
  · rw [if_pos h2]
    rw [invokeLoop_exn_all hp (attempt + 1) (by omega)]
    have hr : maxRetries - 1 - attempt = (maxRetries - 1 - (attempt + 1)) + 1 := by omega
    rw [hr, List.range'_succ]
    simp
  · rw [if_neg h2]
    have h3 : attempt + 1 = maxRetries := by omega
    have h4 : maxRetries - 1 - attempt = 0 := by omega
    have h5 : attempt = maxRetries - 1 := by omega
    rw [h3, h4, h5]
    rfl
termination_by maxRetries - attempt
decreasing_by omega

/-- A non-transient `ClientError` on the first attempt returns its error
mapping at once: one attempt, no sleeps. -/
lemma invokeAgent_nontransient {jparse : List Char → Option JsonVal}
    {provider : Nat → ProviderResult} {maxRetries : Nat} {code msg : String}
    (h : 0 < maxRetries) (hc : provider 0 = ProviderResult.clientError code msg)
    (hn : isTransient code = false) :
    invokeAgent jparse provider maxRetries =
      { result := .jobj [("error", .jstr (code ++ ": " ++ msg))],
        attempts := 1, sleeps := [] } := by
  rw [invokeAgent, invokeLoop_clientError_step h hc, if_neg (by simp [hn])]

/-! ## Claims -/

/-- C2: if the provider reports a transient error (ThrottlingException or
ServiceUnavailableException) on every call, `invoke_agent` makes exactly
`max_retries` attempts (default 3), sleeps `2 ^ attempt` seconds between
successive attempts (1s, 2s, 4s, … with attempt starting at 0), returns a
mapping containing the key `"error"` after the final attempt, and never
raises (the embedding is a total function into `InvokeOutcome`); a
non-transient provider error likewise yields an error-bearing mapping, not an
exception. -/
theorem retry_bound_and_backoff :
    (∀ (jparse : List Char → Option JsonVal) (provider : Nat → ProviderResult)
        (maxRetries : Nat) (code msg : Nat → String),
      0 < maxRetries →
      (∀ n, provider n = ProviderResult.clientError (code n) (msg n)) →
      (∀ n, isTransient (code n) = true) →
      invokeAgent jparse provider maxRetries =
        { result := .jobj [("error",
            .jstr (code (maxRetries - 1) ++ ": " ++ msg (maxRetries - 1)))],
          attempts := maxRetries,
          sleeps := (List.range (maxRetries - 1)).map (2 ^ ·) })
    ∧ defaultMaxRetries = 3
    ∧ (∀ (jparse : List Char → Option JsonVal) (provider : Nat → ProviderResult)
          (maxRetries : Nat) (code msg : String),
        0 < maxRetries →
        provider 0 = ProviderResult.clientError code msg →
        isTransient code = false →
        invokeAgent jparse provider maxRetries =
          { result := .jobj [("error", .jstr (code ++ ": " ++ msg))],
            attempts := 1, sleeps := [] }) := by
  refine ⟨?_, rfl, ?_⟩
  · intro jparse provider maxRetries code msg h hp ht
    rw [invokeAgent, invokeLoop_transient_all hp ht 0 h]
    simp [List.range_eq_range']
  · intro jparse provider maxRetries code msg h hc hn
    exact invokeAgent_nontransient h hc hn

/-- C2 witness: a provider that always throttles, at the default 3 retries:
exactly 3 attempts, sleeps 1s then 2s, final result the error mapping. -/
theorem retry_bound_and_backoff_witness :
    invokeAgent (fun _ => none)
        (fun _ => ProviderResult.clientError "ThrottlingException" "Rate exceeded") 3 =
      { result := .jobj [("error", .jstr "ThrottlingException: Rate exceeded")],
        attempts := 3, sleeps := [1, 2] } := by
  have h := retry_bound_and_backoff.1 (fun _ => none)
      (fun _ => ProviderResult.clientError "ThrottlingException" "Rate exceeded") 3
      (fun _ => "ThrottlingException") (fun _ => "Rate exceeded")
      (by omega) (fun _ => rfl) (fun _ => rfl)
  simpa using h

/-- C10: a non-transient `ClientError` (code neither ThrottlingException nor
ServiceUnavailableException) returns its error mapping immediately — one
attempt, no backoff sleep — whereas a non-`ClientError` exception is retried
with the same exponential backoff up to `max_retries` attempts before
returning `{"error": "Failed to invoke model: <message>"}`. -/
theorem nontransient_immediate_exception_retried :
    (∀ (jparse : List Char → Option JsonVal) (provider : Nat → ProviderResult)
        (maxRetries : Nat) (code msg : String),
      0 < maxRetries →
      provider 0 = ProviderResult.clientError code msg →
      isTransient code = false →
      invokeAgent jparse provider maxRetries =
        { result := .jobj [("error", .jstr (code ++ ": " ++ msg))],
          attempts := 1, sleeps := [] })
    ∧ (∀ (jparse : List Char → Option JsonVal) (provider : Nat → ProviderResult)
          (maxRetries : Nat) (msg : Nat → String),
        0 < maxRetries →
        (∀ n, provider n = ProviderResult.exn (msg n)) →
        invokeAgent jparse provider maxRetries =
          { result := .jobj [("error",
              .jstr ("Failed to invoke model: " ++ msg (maxRetries - 1)))],
            attempts := maxRetries,
            sleeps := (List.range (maxRetries - 1)).map (2 ^ ·) }) := by
  constructor
  · intro jparse provider maxRetries code msg h hc hn
    exact invokeAgent_nontransient h hc hn
  · intro jparse provider maxRetries msg h hp
    rw [invokeAgent, invokeLoop_exn_all hp 0 h]
    simp [List.range_eq_range']

/-- C10 witness: a `ValidationException` returns at once with no sleeps; an
always-raising provider is retried 3 times with sleeps 1s, 2s. -/
theorem nontransient_immediate_exception_retried_witness :
    invokeAgent (fun _ => none)
        (fun _ => ProviderResult.clientError "ValidationException" "bad input") 3 =
      { result := .jobj [("error", .jstr "ValidationException: bad input")],
        attempts := 1, sleeps := [] }
    ∧ invokeAgent (fun _ => none) (fun _ => ProviderResult.exn "boom") 3 =
      { result := .jobj [("error", .jstr "Failed to invoke model: boom")],
        attempts := 3, sleeps := [1, 2] } := by
  constructor
  · have h := nontransient_immediate_exception_retried.1 (fun _ => none)
        (fun _ => ProviderResult.clientError "ValidationException" "bad input") 3
        "ValidationException" "bad input" (by omega) rfl (by rfl)
    simpa using h
  · have h := nontransient_immediate_exception_retried.2 (fun _ => none)
        (fun _ => ProviderResult.exn "boom") 3 (fun _ => "boom") (by omega) (fun _ => rfl)
    simpa using h

/-- C9: for every variant's required-key list (the five lists
`financialAnalyzerKeys` … `explainabilityAgentKeys` instantiate `ks`) and
every mapping the Invoker returned, output validation is a diagnostic side
channel only: `run_with_retry` returns the Invoker's mapping unchanged
whether validation succeeds, reports missing keys, or fails outright, and it
never raises (the embedding is total).  Validation fails exactly when the
mapping carries an `"error"` key, and otherwise at most logs one warning per
missing required key. -/
theorem lenient_validation_preserves_output :
    ∀ (ks : List String) (out : Dict) (ms : Nat),
      (runWithRetry out ms ks).result = out
      ∧ ((runWithRetry out ms ks).validationOk = false ↔ hasKey out "error" = true)
      ∧ ((runWithRetry out ms ks).validationOk = true →
          (runWithRetry out ms ks).warnings =
            (ks.filter (fun k => !hasKey out k)).map
              (fun k => "Missing required key in output: " ++ k)) := by
  intro ks out ms
  refine ⟨rfl, ?_, ?_⟩ <;>
    · unfold runWithRetry validateOutput
      by_cases h : hasKey out "error" = true <;> simp [h]

/-- C9 witness: the Risk Detector's validator on an error-bearing mapping —
validation fails, yet the mapping is returned unchanged. -/
theorem lenient_validation_preserves_output_witness :
    (runWithRetry [("error", .jstr "ThrottlingException: x")] 250 riskDetectorKeys).result =
      [("error", .jstr "ThrottlingException: x")]
    ∧ (runWithRetry [("error", .jstr "ThrottlingException: x")] 250
        riskDetectorKeys).validationOk = false := by
  have h := lenient_validation_preserves_output riskDetectorKeys
      [("error", .jstr "ThrottlingException: x")] 250
  exact ⟨h.1, h.2.1.mpr (by rfl)⟩

/-- C4 (divergence): `run_with_retry` does return the measured wall-clock
duration alongside the result, but every Stage Result `process_analysis`
persists carries the hard-coded literal `execution_time_ms=1000`, whatever
the agents did and however long they took. -/
theorem persisted_duration_is_hardcoded :
    (∀ (docs : List DocRec) (a1 a2 a3 a4 a5 : Dict → Dict),
      ((processAnalysis docs a1 a2 a3 a4 a5).agentResults.all
        (fun r => r.executionTimeMs == 1000)) = true)
    ∧ (∀ (out : Dict) (ms : Nat) (ks : List String),
        (runWithRetry out ms ks).durationMs = ms) := by
  constructor
  · intro docs a1 a2 a3 a4 a5
    unfold processAnalysis
    split
    · rfl
    · dsimp only
      split <;> rfl
  · intro out ms ks
    rfl

/-! ## Lemmas about the orchestrator -/

lemma isEmpty_false_of_ne {α : Type} {l : List α} (h : l ≠ []) : l.isEmpty = false := by
  cases l
  · exact absurd rfl h
  · rfl

/-- A run with at least one document and some extracted text executes all
five stages in sequence and completes. -/
lemma processAnalysis_run {docs : List DocRec} {a1 a2 a3 a4 a5 : Dict → Dict}
    (h1 : docs ≠ []) (h2 : collectText docs ≠ []) :
    processAnalysis docs a1 a2 a3 a4 a5 =
      (let r1 := a1 (buildContext1 (String.intercalate "\n\n" (collectText docs))
                      (collectTypes docs))
       let r2 := a2 (buildContext2 r1)
       let r3 := a3 (buildContext3 r1 r2)
       let r4 := a4 (buildContext4 r1)
       let r5 := a5 (buildContext5 r1 r2 r3 r4)
       { status := "completed", errorMessage := none,
         agentResults :=
           [⟨"Financial Analyzer", r1, 1000⟩,
            ⟨"Cash Flow Forecaster", r2, 1000⟩,
            ⟨"Risk Detector", r3, 1000⟩,
            ⟨"Automation Agent", r4, 1000⟩,
            ⟨"Explainability Agent", r5, 1000⟩],
         report := some (buildReport r1 r2 r3 r4 r5),
         completedAtSet := true,
         statusLog := ["processing", "completed"] }) := by
  unfold processAnalysis
  rw [if_neg (by rw [isEmpty_false_of_ne h1]; simp)]
  dsimp only
  rw [if_neg (by rw [isEmpty_false_of_ne h2]; simp)]
  rfl

/-- C3 (counterexample to the claim as stated): the claim allows only the
statuses pending, running, completed and failed, but the very first status a
run record ever holds is `"processing"` — `run_analysis` creates the record
with it — which is none of the four. -/
theorem status_set_claim_counterexample :
    (processAnalysis [] (fun _ => []) (fun _ => []) (fun _ => []) (fun _ => [])
        (fun _ => [])).statusLog.head? = some "processing"
    ∧ ¬ ("processing" ∈ (["pending", "running", "completed", "failed"] : List String)) := by
  constructor
  · rfl
  · decide

/-- Allowed status transitions of the code's actual lifecycle: the single
in-progress status `"processing"` moves to one of the terminal statuses. -/
def statusStepOk (a b : String) : Prop :=
  a = "processing" ∧ (b = "completed" ∨ b = "failed")

/-- C3 (amended): every status a run record ever holds is one of
`"processing"`, `"completed"`, `"failed"`; the only transitions are
`processing → completed` and `processing → failed`; the status never
regresses, and completed/failed are terminal — no status update follows them
(they never occur as the source of a transition). -/
theorem status_transitions_amended :
    ∀ (docs : List DocRec) (a1 a2 a3 a4 a5 : Dict → Dict),
      (∀ s ∈ (processAnalysis docs a1 a2 a3 a4 a5).statusLog,
        s ∈ (["processing", "completed", "failed"] : List String))
      ∧ List.Chain' statusStepOk (processAnalysis docs a1 a2 a3 a4 a5).statusLog
      ∧ (processAnalysis docs a1 a2 a3 a4 a5).statusLog.head? = some "processing" := by
  intro docs a1 a2 a3 a4 a5
  unfold processAnalysis
  split
  · refine ⟨?_, ?_, rfl⟩
    · intro s hs
      simp only [initialRun, List.nil_append, List.cons_append, List.mem_cons,
        List.not_mem_nil, or_false] at hs
      rcases hs with rfl | rfl <;> simp
    · simp [initialRun, statusStepOk]
  · dsimp only
    split
    · refine ⟨?_, ?_, rfl⟩
      · intro s hs
        simp only [initialRun, List.nil_append, List.cons_append, List.mem_cons,
          List.not_mem_nil, or_false] at hs
        rcases hs with rfl | rfl <;> simp
      · simp [initialRun, statusStepOk]
    · refine ⟨?_, ?_, rfl⟩
      · intro s hs
        simp only [initialRun, List.nil_append, List.cons_append, List.mem_cons,
          List.not_mem_nil, or_false] at hs
        rcases hs with rfl | rfl <;> simp
      · simp [initialRun, statusStepOk]

/-- C7: a started run resolving to zero documents fails with
"No documents found", persisting no Stage Results and no Report; a run whose
documents yield no text at all fails with "No text extracted from documents"
before any agent executes (the outcome is independent of the agents, and no
Stage Result or Report is persisted). -/
theorem run_fails_fast_without_input :
    (∀ (a1 a2 a3 a4 a5 : Dict → Dict),
      processAnalysis [] a1 a2 a3 a4 a5 =
        { status := "failed", errorMessage := some "No documents found",
          agentResults := [], report := none, completedAtSet := false,
          statusLog := ["processing", "failed"] })
    ∧ (∀ (docs : List DocRec) (a1 a2 a3 a4 a5 : Dict → Dict),
        docs ≠ [] → collectText docs = [] →
        processAnalysis docs a1 a2 a3 a4 a5 =
          { status := "failed", errorMessage := some "No text extracted from documents",
            agentResults := [], report := none, completedAtSet := false,
            statusLog := ["processing", "failed"] }) := by
  constructor
  · intro a1 a2 a3 a4 a5
    rfl
  · intro docs a1 a2 a3 a4 a5 h1 h2
    unfold processAnalysis
    rw [if_neg (by rw [isEmpty_false_of_ne h1]; simp)]
    dsimp only
    rw [if_pos (by rw [h2]; rfl)]
    rfl

/-- C7 witness: one stored PDF document whose file is missing on disk — the
run has documents but accumulates no text, and fails before any stage. -/
theorem run_fails_fast_without_input_witness :
    processAnalysis [⟨"report.pdf", none, false, .success "Revenue: 100"⟩]
        (fun _ => []) (fun _ => []) (fun _ => []) (fun _ => []) (fun _ => []) =
      { status := "failed", errorMessage := some "No text extracted from documents",
        agentResults := [], report := none, completedAtSet := false,
        statusLog := ["processing", "failed"] } := by
  exact run_fails_fast_without_input.2 [⟨"report.pdf", none, false, .success "Revenue: 100"⟩]
    (fun _ => []) (fun _ => []) (fun _ => []) (fun _ => []) (fun _ => [])
    (by simp) (by rfl)

/-- C5: when all five stages have run, the Report is exactly the six named
sections: stage 1's output, stage 2's, stage 3's, stage 4's, the value of
stage 5's `loan_readiness_score` key denormalized to the top level (the key's
value when present — in particular 72 when it maps to 72 — and 0 when
absent), and the full stage-5 output as recommended actions. -/
theorem report_six_sections (docs : List DocRec) (a1 a2 a3 a4 a5 : Dict → Dict)
    (h1 : docs ≠ []) (h2 : collectText docs ≠ []) :
    let r1 := a1 (buildContext1 (String.intercalate "\n\n" (collectText docs))
                   (collectTypes docs))
    let r2 := a2 (buildContext2 r1)
    let r3 := a3 (buildContext3 r1 r2)
    let r4 := a4 (buildContext4 r1)
    let r5 := a5 (buildContext5 r1 r2 r3 r4)
    (processAnalysis docs a1 a2 a3 a4 a5).report =
      some [("section_1_financial_health", .jobj r1),
            ("section_2_cash_flow_forecast", .jobj r2),
            ("section_3_risk_alerts", .jobj r3),
            ("section_4_compliance_automation", .jobj r4),
            ("section_5_loan_readiness_score", dgetD r5 "loan_readiness_score" (.jnum 0)),
            ("section_6_recommended_actions", .jobj r5)]
    ∧ (∀ v, dget r5 "loan_readiness_score" = some v →
        dgetD r5 "loan_readiness_score" (.jnum 0) = v)
    ∧ (dget r5 "loan_readiness_score" = none →
        dgetD r5 "loan_readiness_score" (.jnum 0) = .jnum 0) := by
  rw [processAnalysis_run h1 h2]
  refine ⟨rfl, ?_, ?_⟩
  · intro v hv
    rw [dgetD, hv]
    rfl
  · intro hv
    rw [dgetD, hv]
    rfl

/-- C5 witness: a one-document run whose stage 5 returns
`loan_readiness_score: 72` yields a report whose denormalized score section
is 72; the same run with a stage 5 omitting the key yields 0. -/
theorem report_six_sections_witness :
    (processAnalysis [⟨"report.pdf", none, true, .success "Revenue: 100000"⟩]
        (fun _ => [("revenue", .jnum 100000)]) (fun _ => [("runway_months", .jnum 4)])
        (fun _ => [("risk_score", .jnum 10)]) (fun _ => [("compliance_issues", .jarr [])])
        (fun _ => [("loan_readiness_score", .jnum 72)])).report =
      some [("section_1_financial_health", .jobj [("revenue", .jnum 100000)]),
            ("section_2_cash_flow_forecast", .jobj [("runway_months", .jnum 4)]),
            ("section_3_risk_alerts", .jobj [("risk_score", .jnum 10)]),
            ("section_4_compliance_automation", .jobj [("compliance_issues", .jarr [])]),
            ("section_5_loan_readiness_score", .jnum 72),
            ("section_6_recommended_actions", .jobj [("loan_readiness_score", .jnum 72)])]
    ∧ (processAnalysis [⟨"report.pdf", none, true, .success "Revenue: 100000"⟩]
        (fun _ => [("revenue", .jnum 100000)]) (fun _ => [("runway_months", .jnum 4)])
        (fun _ => [("risk_score", .jnum 10)]) (fun _ => [("compliance_issues", .jarr [])])
        (fun _ => [("executive_summary", .jstr "ok")])).report =
      some [("section_1_financial_health", .jobj [("revenue", .jnum 100000)]),
            ("section_2_cash_flow_forecast", .jobj [("runway_months", .jnum 4)]),
            ("section_3_risk_alerts", .jobj [("risk_score", .jnum 10)]),
            ("section_4_compliance_automation", .jobj [("compliance_issues", .jarr [])]),
            ("section_5_loan_readiness_score", .jnum 0),
            ("section_6_recommended_actions", .jobj [("executive_summary", .jstr "ok")])] := by
  constructor
  · have h := report_six_sections [⟨"report.pdf", none, true, .success "Revenue: 100000"⟩]
        (fun _ => [("revenue", .jnum 100000)]) (fun _ => [("runway_months", .jnum 4)])
        (fun _ => [("risk_score", .jnum 10)]) (fun _ => [("compliance_issues", .jarr [])])
        (fun _ => [("loan_readiness_score", .jnum 72)]) (by simp) (by decide)
    exact h.1
  · have h := report_six_sections [⟨"report.pdf", none, true, .success "Revenue: 100000"⟩]
        (fun _ => [("revenue", .jnum 100000)]) (fun _ => [("runway_months", .jnum 4)])
        (fun _ => [("risk_score", .jnum 10)]) (fun _ => [("compliance_issues", .jarr [])])
        (fun _ => [("executive_summary", .jstr "ok")]) (by simp) (by decide)
    exact h.1

/-- C6: each stage's context is built from the preceding stages' unmodified
outputs with exactly the specified named slots and no others — stage 1 gets
`{documents_text, document_types}`, stage 2 exactly
`{financial_data: <stage 1's full output>}`, stage 3 exactly
`{financial_data, cashflow_data}`, stage 4 exactly `{financial_data}`, stage
5 exactly `{financial_data, cashflow_data, risk_data, compliance_data}`.
The embedding is pure, and the same stage-1 value `r1` (etc.) reappears
verbatim in every later context and in the report, so no upstream output is
mutated. -/
theorem context_threading (docs : List DocRec) (a1 a2 a3 a4 a5 : Dict → Dict)
    (h1 : docs ≠ []) (h2 : collectText docs ≠ []) :
    processAnalysis docs a1 a2 a3 a4 a5 =
      (let r1 := a1 [("documents_text", .jstr (String.intercalate "\n\n" (collectText docs))),
                     ("document_types", .jarr ((collectTypes docs).map .jstr))]
       let r2 := a2 [("financial_data", .jobj r1)]
       let r3 := a3 [("financial_data", .jobj r1), ("cashflow_data", .jobj r2)]
       let r4 := a4 [("financial_data", .jobj r1)]
       let r5 := a5 [("financial_data", .jobj r1), ("cashflow_data", .jobj r2),
                     ("risk_data", .jobj r3), ("compliance_data", .jobj r4)]
       { status := "completed", errorMessage := none,
         agentResults :=
           [⟨"Financial Analyzer", r1, 1000⟩,
            ⟨"Cash Flow Forecaster", r2, 1000⟩,
            ⟨"Risk Detector", r3, 1000⟩,
            ⟨"Automation Agent", r4, 1000⟩,
            ⟨"Explainability Agent", r5, 1000⟩],
         report := some (buildReport r1 r2 r3 r4 r5),
         completedAtSet := true,
         statusLog := ["processing", "completed"] }) := by
  rw [processAnalysis_run h1 h2]
  rfl

/-- C6 witness: the concrete one-document run, spelled out. -/
theorem context_threading_witness :
    processAnalysis [⟨"report.pdf", none, true, .success "Revenue: 100000"⟩]
        (fun c => [("got", .jobj c)]) (fun c => [("got", .jobj c)])
        (fun c => [("got", .jobj c)]) (fun c => [("got", .jobj c)])
        (fun c => [("got", .jobj c)]) =
      (let r1 : Dict := [("got", .jobj
          [("documents_text", .jstr "Revenue: 100000"),
           ("document_types", .jarr [.jstr "financial_document"])])]
       let r2 : Dict := [("got", .jobj [("financial_data", .jobj r1)])]
       let r3 : Dict := [("got", .jobj
          [("financial_data", .jobj r1), ("cashflow_data", .jobj r2)])]
       let r4 : Dict := [("got", .jobj [("financial_data", .jobj r1)])]
       let r5 : Dict := [("got", .jobj
          [("financial_data", .jobj r1), ("cashflow_data", .jobj r2),
           ("risk_data", .jobj r3), ("compliance_data", .jobj r4)])]
       { status := "completed", errorMessage := none,
         agentResults :=
           [⟨"Financial Analyzer", r1, 1000⟩,
            ⟨"Cash Flow Forecaster", r2, 1000⟩,
            ⟨"Risk Detector", r3, 1000⟩,
            ⟨"Automation Agent", r4, 1000⟩,
            ⟨"Explainability Agent", r5, 1000⟩],
         report := some (buildReport r1 r2 r3 r4 r5),
         completedAtSet := true,
         statusLog := ["processing", "completed"] }) := by
  have h := context_threading [⟨"report.pdf", none, true, .success "Revenue: 100000"⟩]
      (fun c => [("got", .jobj c)]) (fun c => [("got", .jobj c)])
      (fun c => [("got", .jobj c)]) (fun c => [("got", .jobj c)])
      (fun c => [("got", .jobj c)]) (by simp) (by decide)
  exact h

/-- C1 (counterexample to the claim as stated): in a one-document run where
stage 3 (Risk Detector) returns the error-bearing mapping
`{"error": "ThrottlingException: Rate exceeded"}`, that Stage Result is
persisted, all later stages run, the report carries the mapping verbatim and
the run completes — but stage 4 (a subsequent stage) executes with context
`{financial_data: <stage 1 output>}`, whose only value is stage 1's output,
not the error-bearing mapping: the claim's "every subsequent stage [runs]
with the error-bearing mapping included unchanged in its context" fails at
stage 4. -/
theorem partial_failure_claim_counterexample :
    hasKey [("error", .jstr "ThrottlingException: Rate exceeded")] "error" = true
    ∧ (processAnalysis [⟨"report.pdf", none, true, .success "Revenue: 100000"⟩]
        (fun _ => [("revenue", .jnum 100000)]) (fun _ => [("runway_months", .jnum 4)])
        (fun _ => [("error", .jstr "ThrottlingException: Rate exceeded")])
        (fun _ => [("compliance_issues", .jarr [])])
        (fun _ => [("executive_summary", .jstr "ok")])).agentResults =
      [⟨"Financial Analyzer", [("revenue", .jnum 100000)], 1000⟩,
       ⟨"Cash Flow Forecaster", [("runway_months", .jnum 4)], 1000⟩,
       ⟨"Risk Detector", [("error", .jstr "ThrottlingException: Rate exceeded")], 1000⟩,
       ⟨"Automation Agent", [("compliance_issues", .jarr [])], 1000⟩,
       ⟨"Explainability Agent", [("executive_summary", .jstr "ok")], 1000⟩]
    ∧ (processAnalysis [⟨"report.pdf", none, true, .success "Revenue: 100000"⟩]
        (fun _ => [("revenue", .jnum 100000)]) (fun _ => [("runway_months", .jnum 4)])
        (fun _ => [("error", .jstr "ThrottlingException: Rate exceeded")])
        (fun _ => [("compliance_issues", .jarr [])])
        (fun _ => [("executive_summary", .jstr "ok")])).status = "completed"
    ∧ (buildContext4 [("revenue", .jnum 100000)]).map Prod.snd =
        [.jobj [("revenue", .jnum 100000)]]
    ∧ JsonVal.jobj [("revenue", .jnum 100000)] ≠
        JsonVal.jobj [("error", .jstr "ThrottlingException: Rate exceeded")] := by
  refine ⟨rfl, rfl, rfl, rfl, ?_⟩
  simp

/-- C1 (amended): when stage 3 produces an error-bearing mapping, the
orchestrator still persists that Stage Result, still executes stages 4 and 5
— the error-bearing mapping flowing unchanged into each later context slot
wired to stage 3's output (that is stage 5's `risk_data` slot; stage 4's
context carries only stage 1's output) — and still builds the Report, whose
risk section contains the error-bearing mapping verbatim, and sets the run
to completed. -/
theorem partial_stage_failure_flows_forward (docs : List DocRec)
    (a1 a2 a3 a4 a5 : Dict → Dict) (h1 : docs ≠ []) (h2 : collectText docs ≠ []) :
    let r1 := a1 (buildContext1 (String.intercalate "\n\n" (collectText docs))
                   (collectTypes docs))
    let r2 := a2 (buildContext2 r1)
    let r3 := a3 (buildContext3 r1 r2)
    let r4 := a4 (buildContext4 r1)
    let r5 := a5 (buildContext5 r1 r2 r3 r4)
    hasKey r3 "error" = true →
      ⟨"Risk Detector", r3, 1000⟩ ∈ (processAnalysis docs a1 a2 a3 a4 a5).agentResults
      ∧ ⟨"Automation Agent", r4, 1000⟩ ∈ (processAnalysis docs a1 a2 a3 a4 a5).agentResults
      ∧ ⟨"Explainability Agent", r5, 1000⟩ ∈ (processAnalysis docs a1 a2 a3 a4 a5).agentResults
      ∧ ("risk_data", .jobj r3) ∈ buildContext5 r1 r2 r3 r4
      ∧ dget (buildReport r1 r2 r3 r4 r5) "section_3_risk_alerts" = some (.jobj r3)
      ∧ (processAnalysis docs a1 a2 a3 a4 a5).report =
          some (buildReport r1 r2 r3 r4 r5)
      ∧ (processAnalysis docs a1 a2 a3 a4 a5).status = "completed" := by
  intro r1 r2 r3 r4 r5 _herr
  rw [processAnalysis_run h1 h2]
  refine ⟨?_, ?_, ?_, ?_, rfl, rfl, rfl⟩ <;> (simp [buildContext5]; try rfl)

/-- C1 witness: the concrete throttled-stage-3 run completes with the
error-bearing Stage Result persisted. -/
theorem partial_stage_failure_flows_forward_witness :
    (processAnalysis [⟨"report.pdf", none, true, .success "Revenue: 100000"⟩]
        (fun _ => [("financial", .jbool true)]) (fun _ => [("cash", .jbool true)])
        (fun _ => [("error", .jstr "ThrottlingException: Rate exceeded")])
        (fun _ => [("auto", .jbool true)])
        (fun _ => [("summary", .jbool true)])).status = "completed"
    ∧ (⟨"Risk Detector", [("error", .jstr "ThrottlingException: Rate exceeded")], 1000⟩ :
        AgentResultRec) ∈
        (processAnalysis [⟨"report.pdf", none, true, .success "Revenue: 100000"⟩]
          (fun _ => [("financial", .jbool true)]) (fun _ => [("cash", .jbool true)])
          (fun _ => [("error", .jstr "ThrottlingException: Rate exceeded")])
          (fun _ => [("auto", .jbool true)])
          (fun _ => [("summary", .jbool true)])).agentResults := by
  have h := partial_stage_failure_flows_forward
      [⟨"report.pdf", none, true, .success "Revenue: 100000"⟩]
      (fun _ => [("financial", .jbool true)]) (fun _ => [("cash", .jbool true)])
      (fun _ => [("error", .jstr "ThrottlingException: Rate exceeded")])
      (fun _ => [("auto", .jbool true)])
      (fun _ => [("summary", .jbool true)]) (by simp) (by decide)
  exact ⟨(h rfl).2.2.2.2.2.2, (h rfl).1⟩

/-! ## Valid JSON replies and the fence-stripping cleanup (C8)

`json.loads` accepts a JSON value optionally surrounded by JSON whitespace
(space, tab, newline, carriage return).  Every strict-JSON value begins with
one of `\x7b [ " t f n -` or a digit and ends with one of `\x7d ] " e l` or
a digit — in particular never with a backtick, and never beginning with the
letter `j`.  `JsonCoreText` captures the top-level shape of a JSON value (it
is deliberately a superset of strict JSON: interiors of objects, arrays,
strings and numbers are unconstrained where the claim does not need them, so
the theorem quantifies over at least all valid JSON).  The parse result of a
reply is a function of the cleaned text alone, so proving the cleanup maps
the fenced and unfenced reply to the same text settles the claim for any
parser. -/

/-- The double-quote character. -/
def dquote : Char := Char.ofNat 34

/-- The opening brace `\x7b`. -/
def braceO : Char := Char.ofNat 123

/-- The closing brace `\x7d`. -/
def braceC : Char := Char.ofNat 125

/-- JSON whitespace (RFC 8259), accepted by `json.loads` around a value. -/
def jsonWsChar (c : Char) : Bool :=
  c == ' ' || c == '\t' || c == '\n' || c == '\r'

/-- Characters that can begin a strict-JSON value. -/
def jsonStartChar (c : Char) : Bool :=
  c == braceO || c == '[' || c == dquote || c == 't' || c == 'f' || c == 'n' ||
    c == '-' || c.isDigit

/-- Characters that can end a strict-JSON value. -/
def jsonEndChar (c : Char) : Bool :=
  c == braceC || c == ']' || c == dquote || c == 'e' || c == 'l' || c.isDigit

/-- Top-level shape of a JSON value: a literal, a quoted string, an object,
an array, or a number (leading `-` or digit, ending in a digit).  Interiors
are unconstrained, making this a superset of strict JSON. -/
inductive JsonCoreText : List Char → Prop where
  | jnull : JsonCoreText ['n', 'u', 'l', 'l']
  | jtrue : JsonCoreText ['t', 'r', 'u', 'e']
  | jfalse : JsonCoreText ['f', 'a', 'l', 's', 'e']
  | jstring (cs : List Char) : JsonCoreText (dquote :: cs ++ [dquote])
  | jobject (cs : List Char) : JsonCoreText (braceO :: cs ++ [braceC])
  | jarray (cs : List Char) : JsonCoreText ('[' :: cs ++ [']'])
  | jnumber (c0 : Char) (mid : List Char) (cl : Char) :
      (c0 = '-' ∨ c0.isDigit = true) → cl.isDigit = true →
      JsonCoreText (c0 :: mid ++ [cl])
  | jdigit (c : Char) : c.isDigit = true → JsonCoreText [c]

/-- A string `json.loads` accepts: JSON whitespace, a JSON value, JSON
whitespace. -/
def IsValidJsonText (s : List Char) : Prop :=
  ∃ pre core post, s = pre ++ core ++ post
    ∧ (∀ c ∈ pre, jsonWsChar c = true)
    ∧ (∀ c ∈ post, jsonWsChar c = true)
    ∧ JsonCoreText core

/-! ### Character classifications -/

lemma jsonWsChar_cases {c : Char} (h : jsonWsChar c = true) :
    c = ' ' ∨ c = '\t' ∨ c = '\n' ∨ c = '\r' := by
  simp [jsonWsChar] at h
  tauto

lemma jsonStartChar_cases {c : Char} (h : jsonStartChar c = true) :
    c = braceO ∨ c = '[' ∨ c = dquote ∨ c = 't' ∨ c = 'f' ∨ c = 'n' ∨ c = '-'
      ∨ c.isDigit = true := by
  simp [jsonStartChar] at h
  tauto

lemma jsonEndChar_cases {c : Char} (h : jsonEndChar c = true) :
    c = braceC ∨ c = ']' ∨ c = dquote ∨ c = 'e' ∨ c = 'l' ∨ c.isDigit = true := by
  simp [jsonEndChar] at h
  tauto

lemma digit_not_pyWs {c : Char} (h : c.isDigit = true) : isPyWs c = false := by
  cases hw : isPyWs c
  · rfl
  · exfalso
    have hc : c = ' ' ∨ c = '\t' ∨ c = '\n' ∨ c = '\r' ∨ c = Char.ofNat 11 ∨ c = Char.ofNat 12 := by
      simp [isPyWs] at hw
      tauto
    rcases hc with rfl | rfl | rfl | rfl | rfl | rfl <;> exact absurd h (by decide)

lemma digit_beq_false {c d : Char} (h : c.isDigit = true) (hd : d.isDigit = false) :
    (c == d) = false := by
  cases hb : c == d
  · rfl
  · exfalso
    have : c = d := by simpa using hb
    subst this
    rw [h] at hd
    exact Bool.true_eq_false.mp hd

lemma ws_isPyWs {c : Char} (h : jsonWsChar c = true) : isPyWs c = true := by
  rcases jsonWsChar_cases h with rfl | rfl | rfl | rfl <;> decide

lemma ws_beq_btick {c : Char} (h : jsonWsChar c = true) : (c == btick) = false := by
  rcases jsonWsChar_cases h with rfl | rfl | rfl | rfl <;> decide

lemma ws_beq_j {c : Char} (h : jsonWsChar c = true) : (c == 'j') = false := by
  rcases jsonWsChar_cases h with rfl | rfl | rfl | rfl <;> decide

lemma startChar_not_pyWs {c : Char} (h : jsonStartChar c = true) : isPyWs c = false := by
  rcases jsonStartChar_cases h with rfl | rfl | rfl | rfl | rfl | rfl | rfl | hd <;>
    first
    | decide
    | exact digit_not_pyWs hd

lemma startChar_beq_btick {c : Char} (h : jsonStartChar c = true) : (c == btick) = false := by
  rcases jsonStartChar_cases h with rfl | rfl | rfl | rfl | rfl | rfl | rfl | hd <;>
    first
    | decide
    | exact digit_beq_false hd (by decide)

lemma startChar_beq_j {c : Char} (h : jsonStartChar c = true) : (c == 'j') = false := by
  rcases jsonStartChar_cases h with rfl | rfl | rfl | rfl | rfl | rfl | rfl | hd <;>
    first
    | decide
    | exact digit_beq_false hd (by decide)

lemma endChar_not_pyWs {c : Char} (h : jsonEndChar c = true) : isPyWs c = false := by
  rcases jsonEndChar_cases h with rfl | rfl | rfl | rfl | rfl | hd <;>
    first
    | decide
    | exact digit_not_pyWs hd

lemma endChar_beq_btick {c : Char} (h : jsonEndChar c = true) : (c == btick) = false := by
  rcases jsonEndChar_cases h with rfl | rfl | rfl | rfl | rfl | hd <;>
    first
    | decide
    | exact digit_beq_false hd (by decide)

/-! ### Head and last character of a JSON core -/

lemma JsonCoreText.head_char {l : List Char} (h : JsonCoreText l) :
    ∃ c t, l = c :: t ∧ jsonStartChar c = true := by
  cases h with
  | jnull => exact ⟨'n', _, rfl, by decide⟩
  | jtrue => exact ⟨'t', _, rfl, by decide⟩
  | jfalse => exact ⟨'f', _, rfl, by decide⟩
  | jstring cs => exact ⟨dquote, _, rfl, by decide⟩
  | jobject cs => exact ⟨braceO, _, rfl, by decide⟩
  | jarray cs => exact ⟨'[', _, rfl, by decide⟩
  | jnumber c0 mid cl h0 hcl =>
    refine ⟨c0, _, rfl, ?_⟩
    rcases h0 with rfl | hd
    · decide
    · simp [jsonStartChar, hd]
  | jdigit c hc => exact ⟨c, [], rfl, by simp [jsonStartChar, hc]⟩

lemma JsonCoreText.last_char {l : List Char} (h : JsonCoreText l) :
    ∃ c, l.getLast? = some c ∧ jsonEndChar c = true := by
  cases h with
  | jnull => exact ⟨'l', rfl, by decide⟩
  | jtrue => exact ⟨'e', rfl, by decide⟩
  | jfalse => exact ⟨'e', rfl, by decide⟩
  | jstring cs =>
    exact ⟨dquote, by rw [show dquote :: cs ++ [dquote] = (dquote :: cs) ++ [dquote] from rfl,
      List.getLast?_concat], by decide⟩
  | jobject cs =>
    exact ⟨braceC, by rw [show braceO :: cs ++ [braceC] = (braceO :: cs) ++ [braceC] from rfl,
      List.getLast?_concat], by decide⟩
  | jarray cs =>
    exact ⟨']', by rw [show '[' :: cs ++ [']'] = ('[' :: cs) ++ [']'] from rfl,
      List.getLast?_concat], by decide⟩
  | jnumber c0 mid cl h0 hcl =>
    exact ⟨cl, by rw [show c0 :: mid ++ [cl] = (c0 :: mid) ++ [cl] from rfl,
      List.getLast?_concat], by simp [jsonEndChar, hcl]⟩
  | jdigit c hc => exact ⟨c, rfl, by simp [jsonEndChar, hc]⟩

/-! ### `pyStrip`, `listStarts` and `listEnds` -/

lemma dropWhile_append_ws {pre l : List Char} (h : ∀ c ∈ pre, isPyWs c = true) :
    (pre ++ l).dropWhile isPyWs = l.dropWhile isPyWs := by
  induction pre with
  | nil => rfl
  | cons a t ih =>
    rw [List.cons_append, List.dropWhile_cons, if_pos (h a (List.mem_cons_self a t))]
    exact ih (fun c hc => h c (List.mem_cons_of_mem a hc))

lemma dropWhile_cons_not {c : Char} {l : List Char} (h : isPyWs c = false) :
    (c :: l).dropWhile isPyWs = c :: l := by
  rw [List.dropWhile_cons, if_neg (by simp [h])]

/-- Stripping a text that is whitespace, then a block with non-whitespace
ends, then whitespace, yields the block. -/
lemma pyStrip_sandwich {pre core post : List Char}
    (hpre : ∀ c ∈ pre, isPyWs c = true) (hpost : ∀ c ∈ post, isPyWs c = true)
    (hne : core ≠ [])
    (hhead : ∀ c, core.head? = some c → isPyWs c = false)
    (hlast : ∀ c, core.getLast? = some c → isPyWs c = false) :
    pyStrip (pre ++ core ++ post) = core := by
  obtain ⟨c0, t, rfl⟩ : ∃ c0 t, core = c0 :: t := by
    cases core with
    | nil => exact absurd rfl hne
    | cons a t => exact ⟨a, t, rfl⟩
  unfold pyStrip
  rw [List.append_assoc, dropWhile_append_ws hpre, List.cons_append,
    dropWhile_cons_not (hhead c0 rfl), ← List.cons_append, List.reverse_append,
    dropWhile_append_ws (fun c hc => hpost c (List.mem_reverse.mp hc))]
  obtain ⟨cl, r, hr⟩ : ∃ cl r, (c0 :: t).reverse = cl :: r := by
    cases hr : (c0 :: t).reverse with
    | nil => simp at hr
    | cons a r => exact ⟨a, r, rfl⟩
  have hcl : (c0 :: t).getLast? = some cl := by
    rw [← List.head?_reverse, hr]
    rfl
  rw [hr, dropWhile_cons_not (hlast cl hcl), ← hr, List.reverse_reverse]

/-- Stripping a text with non-whitespace ends is the identity. -/
lemma pyStrip_of_bounds {core : List Char} (hne : core ≠ [])
    (hhead : ∀ c, core.head? = some c → isPyWs c = false)
    (hlast : ∀ c, core.getLast? = some c → isPyWs c = false) :
    pyStrip core = core := by
  have h := @pyStrip_sandwich [] core [] (by simp) (by simp) hne hhead hlast
  simpa using h

lemma listStarts_nil (l : List Char) : listStarts l [] = true := by
  cases l <;> rfl

lemma listStarts_append_self (p l : List Char) : listStarts (p ++ l) p = true := by
  induction p with
  | nil => exact listStarts_nil l
  | cons a t ih => simp [listStarts, ih]

lemma listStarts_head_ne {l p : List Char} {c d : Char}
    (hl : l.head? = some c) (hp : p.head? = some d) (h : (c == d) = false) :
    listStarts l p = false := by
  cases l with
  | nil => exact absurd hl (by simp)
  | cons a t =>
    cases p with
    | nil => exact absurd hp (by simp)
    | cons b q =>
      obtain rfl : a = c := by simpa using hl
      obtain rfl : b = d := by simpa using hp
      simp [listStarts, h]

lemma listEnds_append_self (l p : List Char) : listEnds (l ++ p) p = true := by
  rw [listEnds, List.reverse_append]
  exact listStarts_append_self _ _

lemma listEnds_last_ne {l p : List Char} {c d : Char}
    (hl : l.getLast? = some c) (hp : p.getLast? = some d) (h : (c == d) = false) :
    listEnds l p = false := by
  rw [listEnds]
  exact listStarts_head_ne (by rw [List.head?_reverse]; exact hl)
    (by rw [List.head?_reverse]; exact hp) h

/-! ### Facts about the two fences -/

lemma drop7_fenceJson (l : List Char) : (fenceJson ++ l).drop 7 = l := rfl

lemma drop3_fence (l : List Char) : (fence ++ l).drop 3 = l := rfl

lemma head?_fenceJson_append (l : List Char) : (fenceJson ++ l).head? = some btick := rfl

lemma head?_fence_append (l : List Char) : (fence ++ l).head? = some btick := rfl

lemma getLast?_append_fence (l : List Char) : (l ++ fence).getLast? = some btick := by
  rw [← List.head?_reverse, List.reverse_append]
  rfl

lemma listStarts_fence_fenceJson (l : List Char) :
    listStarts (fence ++ l) fenceJson = listStarts l ['j', 's', 'o', 'n'] := by
  simp [fence, fenceJson, listStarts]

lemma take_append_fence (l : List Char) :
    (l ++ fence).take ((l ++ fence).length - 3) = l := by
  have h : (l ++ fence).length - 3 = l.length := by simp [fence]
  rw [h]
  exact List.take_left l fence

/-! ### The cleanup on valid JSON, bare and fenced -/

/-- A JSON value's first and last characters are not Python whitespace. -/
lemma json_core_bounds {core : List Char} (hcore : JsonCoreText core) :
    core ≠ []
    ∧ (∀ c, core.head? = some c → isPyWs c = false)
    ∧ (∀ c, core.getLast? = some c → isPyWs c = false) := by
  obtain ⟨c0, t, hcoreEq, hc0⟩ := hcore.head_char
  obtain ⟨cl, hcl, hclE⟩ := hcore.last_char
  refine ⟨by rw [hcoreEq]; simp, ?_, ?_⟩
  · intro c hc
    rw [hcoreEq] at hc
    obtain rfl : c0 = c := by simpa using hc
    exact startChar_not_pyWs hc0
  · intro c hc
    rw [hcl] at hc
    obtain rfl : cl = c := by simpa using hc
    exact endChar_not_pyWs hclE

/-- Stripping whitespace around a JSON value recovers the value. -/
lemma pyStrip_json_sandwich {pre core post : List Char}
    (hpre : ∀ c ∈ pre, jsonWsChar c = true) (hpost : ∀ c ∈ post, jsonWsChar c = true)
    (hcore : JsonCoreText core) :
    pyStrip (pre ++ core ++ post) = core := by
  obtain ⟨hne, hhead, hlast⟩ := json_core_bounds hcore
  exact pyStrip_sandwich (fun c hc => ws_isPyWs (hpre c hc))
    (fun c hc => ws_isPyWs (hpost c hc)) hne hhead hlast

/-- On a valid JSON text the cleanup only strips the surrounding whitespace:
no fence branch fires, because a JSON value neither starts nor ends with a
backtick. -/
lemma cleanReply_core {pre core post : List Char}
    (hpre : ∀ c ∈ pre, jsonWsChar c = true) (hpost : ∀ c ∈ post, jsonWsChar c = true)
    (hcore : JsonCoreText core) :
    cleanReply (pre ++ core ++ post) = core := by
  obtain ⟨c0, t, hcoreEq, hc0⟩ := hcore.head_char
  obtain ⟨cl, hcl, hclE⟩ := hcore.last_char
  obtain ⟨hne, hhead, hlastws⟩ := json_core_bounds hcore
  have hcorehead : core.head? = some c0 := by rw [hcoreEq]; rfl
  have hstrip : pyStrip (pre ++ core ++ post) = core :=
    pyStrip_json_sandwich hpre hpost hcore
  have hsj : listStarts core fenceJson = false :=
    listStarts_head_ne hcorehead rfl (startChar_beq_btick hc0)
  have hsf : listStarts core fence = false :=
    listStarts_head_ne hcorehead rfl (startChar_beq_btick hc0)
  have hef : listEnds core fence = false :=
    listEnds_last_ne hcl rfl (endChar_beq_btick hclE)
  have hn1 : ¬ (listStarts core fenceJson = true) := by simp [hsj]
  have hn2 : ¬ (listStarts core fence = true) := by simp [hsf]
  have hn3 : ¬ (listEnds core fence = true) := by simp [hef]
  unfold cleanReply
  dsimp only
  rw [hstrip, if_neg hn1, if_neg hn2, if_neg hn3]
  exact pyStrip_of_bounds hne hhead hlastws

/-- The head of the valid JSON text followed by the closing fence is either
leading whitespace or the value's first character — never a backtick, never
the letter `j`. -/
lemma head_facts_s_fence {pre core post : List Char}
    (hpre : ∀ c ∈ pre, jsonWsChar c = true) (hcore : JsonCoreText core) :
    ∃ ch, ((pre ++ core ++ post) ++ fence).head? = some ch
      ∧ (ch == btick) = false ∧ (ch == 'j') = false := by
  obtain ⟨c0, t, hcoreEq, hc0⟩ := hcore.head_char
  cases pre with
  | nil =>
    exact ⟨c0, by simp [hcoreEq], startChar_beq_btick hc0, startChar_beq_j hc0⟩
  | cons a p' =>
    have hwa := hpre a (List.mem_cons_self a p')
    exact ⟨a, by simp, ws_beq_btick hwa, ws_beq_j hwa⟩

/-- Stripping the ```` ```json ````-fenced form recovers the JSON value. -/
lemma cleanReply_fenceJson_wrapped {pre core post : List Char}
    (hpre : ∀ c ∈ pre, jsonWsChar c = true) (hpost : ∀ c ∈ post, jsonWsChar c = true)
    (hcore : JsonCoreText core) :
    cleanReply (fenceJson ++ (pre ++ core ++ post) ++ fence) = core := by
  obtain ⟨ch, hch, hchb, _⟩ := @head_facts_s_fence pre core post hpre hcore
  have hne : fenceJson ++ ((pre ++ core ++ post) ++ fence) ≠ [] := by simp [fenceJson]
  have hh : ∀ c, (fenceJson ++ ((pre ++ core ++ post) ++ fence)).head? = some c →
      isPyWs c = false := by
    intro c hc
    rw [head?_fenceJson_append] at hc
    obtain rfl : btick = c := by simpa using hc
    decide
  have hl : ∀ c, (fenceJson ++ ((pre ++ core ++ post) ++ fence)).getLast? = some c →
      isPyWs c = false := by
    intro c hc
    rw [show fenceJson ++ ((pre ++ core ++ post) ++ fence) =
      (fenceJson ++ (pre ++ core ++ post)) ++ fence from
        (List.append_assoc fenceJson (pre ++ core ++ post) fence).symm,
      getLast?_append_fence] at hc
    obtain rfl : btick = c := by simpa using hc
    decide
  have hstrip : pyStrip (fenceJson ++ ((pre ++ core ++ post) ++ fence)) =
      fenceJson ++ ((pre ++ core ++ post) ++ fence) := pyStrip_of_bounds hne hh hl
  have hstart : listStarts (fenceJson ++ ((pre ++ core ++ post) ++ fence)) fenceJson = true :=
    listStarts_append_self _ _
  have hsf2 : listStarts ((pre ++ core ++ post) ++ fence) fence = false :=
    listStarts_head_ne hch rfl hchb
  have hef2 : listEnds ((pre ++ core ++ post) ++ fence) fence = true :=
    listEnds_append_self _ _
  have hn2 : ¬ (listStarts ((pre ++ core ++ post) ++ fence) fence = true) := by
    simp only [hsf2]
    exact fun h => absurd h (by simp)
  rw [show fenceJson ++ (pre ++ core ++ post) ++ fence =
    fenceJson ++ ((pre ++ core ++ post) ++ fence) from List.append_assoc _ _ _]
  unfold cleanReply
  dsimp only
  rw [hstrip, if_pos hstart, drop7_fenceJson ((pre ++ core ++ post) ++ fence),
    if_neg hn2, if_pos hef2, take_append_fence (pre ++ core ++ post)]
  exact pyStrip_json_sandwich hpre hpost hcore

/-- Stripping the bare ```` ``` ````-fenced form recovers the JSON value. -/
lemma cleanReply_fence_wrapped {pre core post : List Char}
    (hpre : ∀ c ∈ pre, jsonWsChar c = true) (hpost : ∀ c ∈ post, jsonWsChar c = true)
    (hcore : JsonCoreText core) :
    cleanReply (fence ++ (pre ++ core ++ post) ++ fence) = core := by
  obtain ⟨ch, hch, hchb, hchj⟩ := @head_facts_s_fence pre core post hpre hcore
  have hne : fence ++ ((pre ++ core ++ post) ++ fence) ≠ [] := by simp [fence]
  have hh : ∀ c, (fence ++ ((pre ++ core ++ post) ++ fence)).head? = some c →
      isPyWs c = false := by
    intro c hc
    rw [head?_fence_append] at hc
    obtain rfl : btick = c := by simpa using hc
    decide
  have hl : ∀ c, (fence ++ ((pre ++ core ++ post) ++ fence)).getLast? = some c →
      isPyWs c = false := by
    intro c hc
    rw [show fence ++ ((pre ++ core ++ post) ++ fence) =
      (fence ++ (pre ++ core ++ post)) ++ fence from
        (List.append_assoc fence (pre ++ core ++ post) fence).symm,
      getLast?_append_fence] at hc
    obtain rfl : btick = c := by simpa using hc
    decide
  have hstrip : pyStrip (fence ++ ((pre ++ core ++ post) ++ fence)) =
      fence ++ ((pre ++ core ++ post) ++ fence) := pyStrip_of_bounds hne hh hl
  have hstart1 : listStarts (fence ++ ((pre ++ core ++ post) ++ fence)) fenceJson = false := by
    rw [listStarts_fence_fenceJson]
    exact listStarts_head_ne hch rfl hchj
  have hstart2 : listStarts (fence ++ ((pre ++ core ++ post) ++ fence)) fence = true :=
    listStarts_append_self _ _
  have hsf2 : listStarts ((pre ++ core ++ post) ++ fence) fence = false :=
    listStarts_head_ne hch rfl hchb
  have hef2 : listEnds ((pre ++ core ++ post) ++ fence) fence = true :=
    listEnds_append_self _ _
  have hn1 : ¬ (listStarts (fence ++ ((pre ++ core ++ post) ++ fence)) fenceJson = true) := by
    simp only [hstart1]
    exact fun h => absurd h (by simp)
  rw [show fence ++ (pre ++ core ++ post) ++ fence =
    fence ++ ((pre ++ core ++ post) ++ fence) from List.append_assoc _ _ _]
  unfold cleanReply
  dsimp only
  rw [hstrip, if_neg hn1, if_pos hstart2, drop3_fence ((pre ++ core ++ post) ++ fence),
    if_pos hef2, take_append_fence (pre ++ core ++ post)]
  exact pyStrip_json_sandwich hpre hpost hcore

/-- C8: for every string that is valid JSON (JSON whitespace around a JSON
value — `JsonCoreText` is a superset of strict JSON values), the cleanup
yields the same text whether the string is given bare or wrapped in a
leading ```` ```json ```` or ```` ``` ```` fence and a trailing
```` ``` ```` fence; hence any parser — `json.loads` in particular —
produces identical structured data in all cases. -/
theorem fenced_reply_parses_identically (s : List Char) (h : IsValidJsonText s) :
    cleanReply (fenceJson ++ s ++ fence) = cleanReply s
    ∧ cleanReply (fence ++ s ++ fence) = cleanReply s
    ∧ ∀ (jparse : List Char → Option JsonVal),
        jparse (cleanReply (fenceJson ++ s ++ fence)) = jparse (cleanReply s)
        ∧ jparse (cleanReply (fence ++ s ++ fence)) = jparse (cleanReply s) := by
  obtain ⟨pre, core, post, rfl, hpre, hpost, hcore⟩ := h
  have h0 := cleanReply_core hpre hpost hcore
  have h1 := cleanReply_fenceJson_wrapped hpre hpost hcore
  have h2 := cleanReply_fence_wrapped hpre hpost hcore
  exact ⟨by rw [h1, h0], by rw [h2, h0],
    fun jparse => ⟨by rw [h1, h0], by rw [h2, h0]⟩⟩

/-- C8 witness: the reply `"\n\x7b\x7d\n"` (the empty object with
surrounding newlines), bare and ```` ```json ````-fenced, cleans to the same
text, namely `"\x7b\x7d"`. -/
theorem fenced_reply_parses_identically_witness :
    cleanReply (fenceJson ++ ['\n', braceO, braceC, '\n'] ++ fence) =
      cleanReply ['\n', braceO, braceC, '\n']
    ∧ cleanReply (fence ++ ['\n', braceO, braceC, '\n'] ++ fence) =
      cleanReply ['\n', braceO, braceC, '\n']
    ∧ cleanReply ['\n', braceO, braceC, '\n'] = [braceO, braceC] := by
  have h := fenced_reply_parses_identically ['\n', braceO, braceC, '\n']
      ⟨['\n'], [braceO, braceC], ['\n'], rfl, by decide, by decide,
        JsonCoreText.jobject []⟩
  exact ⟨h.1, h.2.1, by decide⟩

end CFOne
